import Mathlib

/-!
Verification of the data-policy-driven request executor of `src/core/request.js`
(classes `PrivateRequest` and `Request`).  The executable definitions below are a
shallow embedding of that file: the request descriptor becomes a structure, the
cache and network racks become function parameters, and the promise chain of
`execute()` becomes explicit sequencing returning an `Except` result, the final
descriptor state, and a trace of layer invocations.  Theorems at the end check
the specification claims against this embedding.
-/

namespace Kinvey

/-- JavaScript-style values, used for request bodies and response payloads
(both are opaque to the executor, so a small value universe suffices). -/
inductive JSVal where
  | undef
  | null
  | str (s : String)
  | num (n : Int)
  deriving DecidableEq, Repr

/-- ASCII model of the JavaScript `toLowerCase` on one character (header names
and HTTP methods in the source are ASCII). -/
def jsLowerChar (c : Char) : Char :=
  if 65 ≤ c.toNat ∧ c.toNat ≤ 90 then Char.ofNat (c.toNat + 32) else c

/-- ASCII model of the JavaScript `toUpperCase` on one character. -/
def jsUpperChar (c : Char) : Char :=
  if 97 ≤ c.toNat ∧ c.toNat ≤ 122 then Char.ofNat (c.toNat - 32) else c

/-- Model of `String.prototype.toLowerCase`. -/
def jsToLower (s : String) : String := ⟨s.data.map jsLowerChar⟩

/-- Model of `String.prototype.toUpperCase`. -/
def jsToUpper (s : String) : String := ⟨s.data.map jsUpperChar⟩

theorem toNat_ofNatAux (n : Nat) (h : n.isValidChar) : (Char.ofNatAux n h).toNat = n := by
  simp [Char.ofNatAux, Char.toNat, UInt32.toNat, BitVec.toNat_ofNatLt]

theorem toNat_ofNat_valid (n : Nat) (h : n.isValidChar) : (Char.ofNat n).toNat = n := by
  simp [Char.ofNat, h, toNat_ofNatAux]

theorem jsLowerChar_def (c : Char) :
    jsLowerChar c = if 65 ≤ c.toNat ∧ c.toNat ≤ 90 then Char.ofNat (c.toNat + 32) else c := rfl

theorem jsLowerChar_toNat (c : Char) :
    (jsLowerChar c).toNat = if 65 ≤ c.toNat ∧ c.toNat ≤ 90 then c.toNat + 32 else c.toNat := by
  rw [jsLowerChar_def]
  split
  · next h => exact toNat_ofNat_valid _ (Or.inl (by omega))
  · rfl

theorem jsLowerChar_idem (c : Char) : jsLowerChar (jsLowerChar c) = jsLowerChar c := by
  have h := jsLowerChar_toNat c
  by_cases hc : 65 ≤ c.toNat ∧ c.toNat ≤ 90
  · rw [if_pos hc] at h
    rw [jsLowerChar_def (jsLowerChar c), if_neg (by omega)]
  · rw [if_neg hc] at h
    rw [jsLowerChar_def (jsLowerChar c), if_neg (by omega)]

theorem jsToLower_idem (s : String) : jsToLower (jsToLower s) = jsToLower s := by
  show String.mk ((s.data.map jsLowerChar).map jsLowerChar) = String.mk (s.data.map jsLowerChar)
  rw [List.map_map]
  congr 1
  exact List.map_congr_left fun a _ => jsLowerChar_idem a

/-- Association-list model of a JavaScript plain object used as a string map:
insertion order preserved, at most one binding per key. -/
abbrev SMap := List (String × String)

/-- JS property write `obj[k] = v`: overwrite the binding in place when the key
exists, otherwise append a new binding. -/
def objSet : SMap → String → String → SMap
  | [], k, v => [(k, v)]
  | (k0, v0) :: rest, k, v =>
    if k0 = k then (k, v) :: rest else (k0, v0) :: objSet rest k v

/-- First-match lookup in `Object.keys` iteration order. -/
def alookup : SMap → String → Option String
  | [], _ => none
  | (k0, v0) :: rest, k => if k0 = k then some v0 else alookup rest k

/-- lodash `merge(base, overlay)` restricted to flat string maps: every binding
of the overlay is written into the base, so the overlay wins on key collision. -/
def jsMerge (base overlay : SMap) : SMap :=
  overlay.foldl (fun acc kv => objSet acc kv.1 kv.2) base

/-- The keys of the map are pairwise distinct, as they are for a JS object. -/
def NodupKeys (m : SMap) : Prop := (m.map Prod.fst).Nodup

instance (m : SMap) : Decidable (NodupKeys m) := by unfold NodupKeys; infer_instance

theorem alookup_objSet (m : SMap) (k v k0 : String) :
    alookup (objSet m k v) k0 = if k = k0 then some v else alookup m k0 := by
  induction m with
  | nil => by_cases h : k = k0 <;> simp [objSet, alookup, h]
  | cons p rest ih =>
    obtain ⟨k1, v1⟩ := p
    by_cases h1 : k1 = k
    · subst h1
      by_cases h : k1 = k0 <;> simp [objSet, alookup, h]
    · by_cases h : k1 = k0
      · subst h
        have hkk : ¬k = k1 := fun hc => h1 hc.symm
        simp [objSet, alookup, h1, hkk]
      · simp [objSet, alookup, h1, h, ih]

theorem alookup_eq_none_of_not_mem_keys (m : SMap) (k : String)
    (h : k ∉ m.map Prod.fst) : alookup m k = none := by
  induction m with
  | nil => rfl
  | cons p rest ih =>
    obtain ⟨k1, v1⟩ := p
    simp only [List.map_cons, List.mem_cons, not_or] at h
    have hne : ¬k1 = k := fun hc => h.1 hc.symm
    simp [alookup, hne, ih h.2]

theorem alookup_jsMerge (base overlay : SMap) (k : String) (h : NodupKeys overlay) :
    alookup (jsMerge base overlay) k =
      match alookup overlay k with
      | some v => some v
      | none => alookup base k := by
  induction overlay generalizing base with
  | nil => simp [jsMerge, alookup]
  | cons p rest ih =>
    obtain ⟨k1, v1⟩ := p
    have h1 : (k1 :: rest.map Prod.fst).Nodup := by simpa [NodupKeys] using h
    have hnd : NodupKeys rest := by simpa [NodupKeys] using h1.of_cons
    have hnotin : k1 ∉ rest.map Prod.fst := (List.nodup_cons.mp h1).1
    show alookup (jsMerge (objSet base k1 v1) rest) k = _
    rw [ih _ hnd]
    by_cases hk : k1 = k
    · subst hk
      rw [alookup_eq_none_of_not_mem_keys rest k1 hnotin]
      simp [alookup, alookup_objSet]
    · cases hrest : alookup rest k <;>
        simp [alookup, hrest, alookup_objSet, hk, fun hc : k = k1 => hk hc.symm]

/-- The client configuration, as consumed by the executor (`apiProtocol` and
`apiHost` are read at construction time). -/
structure Client where
  apiProtocol : String
  apiHost : String
  deriving DecidableEq, Repr

/-- External `Response` collaborator: carries `data` and an `isSuccess`
predicate, modelled as the boolean field `success`. -/
structure Response where
  success : Bool
  data : JSVal
  deriving DecidableEq, Repr

/-- Errors surfaced by the executor or by the collaborating racks.
`alreadyExecuting` is the re-entrancy KinveyError of line 160;
`typeError` models the JS TypeError raised when a property of an
undefined value is read; `notAString` and `invalidMethod` are the two
throws of the `method` setter; `rackFailure` stands for an arbitrary
rejection produced by a rack or an auth function. -/
inductive KError where
  | alreadyExecuting
  | typeError
  | notAString
  | invalidMethod
  | rackFailure (msg : String)
  deriving DecidableEq, Repr

/-- A credential set: `scheme` plus either verbatim `credentials` or a
`username`/`password` pair (absent fields are JS `undefined`). -/
structure CredSet where
  scheme : String
  credentials : Option String := none
  username : Option String := none
  password : Option String := none
  deriving DecidableEq, Repr

/-- What an auth strategy resolves to: JS `undefined`, explicit `null`, or a
credential set. -/
inductive AuthResolved where
  | undef
  | null
  | set (c : CredSet)

/-- The auth strategy attached to a descriptor: absent (`undefined`/`null`,
skipped by the `isDefined` test), a static credential set, or an asynchronous
credential-producing function invoked with the client. -/
inductive AuthStrategy where
  | undef
  | set (c : CredSet)
  | fn (f : Client → Except KError AuthResolved)

/-- The `DataPolicy` enumeration. -/
inductive DataPolicy where
  | LocalOnly
  | LocalFirst
  | CloudOnly
  | CloudFirst
  deriving DecidableEq, Repr

/-- The `HttpMethod` enumeration maps names to the literal method strings. -/
def HttpMethod.OPTIONS : String := "OPTIONS"

def HttpMethod.GET : String := "GET"

def HttpMethod.POST : String := "POST"

def HttpMethod.PATCH : String := "PATCH"

def HttpMethod.PUT : String := "PUT"

def HttpMethod.DELETE : String := "DELETE"

/-- The methods accepted by the `switch` of the `method` setter. -/
def httpMethods : List String :=
  [HttpMethod.OPTIONS, HttpMethod.GET, HttpMethod.POST,
   HttpMethod.PATCH, HttpMethod.PUT, HttpMethod.DELETE]

/-- A method string accepted by the setter (descriptors reachable through the
source API always carry one of these). -/
def ValidMethod (m : String) : Prop := m ∈ httpMethods

instance (m : String) : Decidable (ValidMethod m) := by unfold ValidMethod; infer_instance

/-- The value of `process.env.KINVEY_API_VERSION` read when default headers are
installed; an arbitrary constant, no claim depends on it. -/
def kinveyApiVersion : String := "3"

/-- The `PrivateRequest` descriptor.  `method` is kept as the stored string
(the setter normalizes it), `headers` hold lower-cased keys, `response` is the
last saved response, and `executing` is the single-flight flag.  The `hash`
property read by the `url` getter is never assigned anywhere in the source, so
it contributes nothing and is omitted.  `responseType` stores the transport
token computed by the `responseType` setter (the constructor sets
`ResponseType.Text`, which maps to the empty-string token). -/
structure Req where
  method : String
  path : String
  query : Option SMap
  body : JSVal
  headers : SMap
  protocol : String
  host : String
  flags : Option SMap
  client : Client
  auth : AuthStrategy
  dataPolicy : DataPolicy
  responseType : String
  executing : Bool
  response : Option Response

/-- `getHeader`: scan the keys in iteration order and compare lower-cased. -/
def getHeaderL : SMap → String → Option String
  | [], _ => none
  | (k0, v0) :: rest, k =>
    if jsToLower k0 = jsToLower k then some v0 else getHeaderL rest k

/-- `getHeader` on a descriptor. -/
def Req.getHeader (r : Req) (name : String) : Option String := getHeaderL r.headers name

/-- `setHeader`: store under the lower-cased key. -/
def Req.setHeader (r : Req) (name value : String) : Req :=
  { r with headers := objSet r.headers (jsToLower name) value }

/-- `addHeaders`: apply `setHeader` for each entry in iteration order. -/
def addHeadersL (hs new : SMap) : SMap :=
  new.foldl (fun acc kv => objSet acc (jsToLower kv.1) kv.2) hs

/-- `addHeaders` on a descriptor. -/
def Req.addHeaders (r : Req) (new : SMap) : Req :=
  { r with headers := addHeadersL r.headers new }

/-- `removeHeader`: delete the lower-cased key. -/
def Req.removeHeader (r : Req) (name : String) : Req :=
  { r with headers := r.headers.filter fun p => p.1 ≠ jsToLower name }

/-- The default headers installed by the constructor (`Accept`,
`Content-Type`, `X-Kinvey-Api-Version`), lower-cased by `setHeader`. -/
def defaultHeaders : SMap :=
  addHeadersL []
    [("Accept", "application/json"),
     ("Content-Type", "application/json"),
     ("X-Kinvey-Api-Version", kinveyApiVersion)]

/-- The `method` setter: reject non-strings, uppercase, accept exactly the six
enumerated methods.  The stored method is the uppercased string. -/
def setMethodVal (r : Req) (v : JSVal) : Except KError Req :=
  match v with
  | .str s =>
    let m := jsToUpper s
    if m ∈ httpMethods then .ok { r with method := m } else .error .invalidMethod
  | _ => .error .notAString

/-- `result(this.query, toJSON, default)`: serialized query or empty map. -/
def Req.queryJSON (r : Req) : SMap := r.query.getD []

/-- The flags mapping (`undefined` flags merge as the empty map). -/
def Req.flagsMap (r : Req) : SMap := r.flags.getD []

/-- `merge(empty, this.flags, result(this.query, toJSON, empty))` from the
`url` getter. -/
def Req.mergedQuery (r : Req) : SMap := jsMerge (jsMerge [] r.flagsMap) r.queryJSON

/-- Render the merged mapping as a query string, as `url.format` does. -/
def renderQueryString : SMap → String
  | [] => ""
  | qs => "?" ++ String.intercalate "&" (qs.map fun kv => kv.1 ++ "=" ++ kv.2)

/-- The `url` getter: `url.format` over protocol, host, pathname and the
merged query mapping (the unassigned `hash` contributes nothing). -/
def Req.url (r : Req) : String :=
  (if r.protocol.endsWith ":" then r.protocol else r.protocol ++ ":")
    ++ "//" ++ r.host ++ r.path ++ renderQueryString r.mergedQuery

/-- The base64 alphabet. -/
def base64Alphabet : List Char :=
  "ABCDEFGHIJKLMNOPQRSTUVWXYZabcdefghijklmnopqrstuvwxyz0123456789+/".data

/-- Digit of the base64 alphabet. -/
def b64char (n : Nat) : Char := base64Alphabet.getD n 'A'

/-- Standard base64 over a byte list, three bytes at a time, with padding. -/
def base64Chunks : List Nat → String
  | [] => ""
  | [a] =>
    String.mk [b64char (a / 4), b64char (a % 4 * 16), '=', '=']
  | [a, b] =>
    String.mk [b64char (a / 4), b64char (a % 4 * 16 + b / 16), b64char (b % 16 * 4), '=']
  | a :: b :: c :: rest =>
    String.mk [b64char (a / 4), b64char (a % 4 * 16 + b / 16),
      b64char (b % 16 * 4 + c / 64), b64char (c % 64)] ++ base64Chunks rest

/-- UTF-8 encoding of one code point as byte values. -/
def utf8Bytes (c : Char) : List Nat :=
  let n := c.toNat
  if n < 128 then [n]
  else if n < 2048 then [192 + n / 64, 128 + n % 64]
  else if n < 65536 then [224 + n / 4096, 128 + n / 64 % 64, 128 + n % 64]
  else [240 + n / 262144, 128 + n / 4096 % 64, 128 + n / 64 % 64, 128 + n % 64]

/-- `new Buffer(s).toString(base64)`: base64 of the UTF-8 bytes. -/
def base64encode (s : String) : String :=
  base64Chunks (s.data.flatMap utf8Bytes)

/-- JS string interpolation of a possibly-undefined string value. -/
def jsShow : Option String → String
  | some s => s
  | none => "undefined"

/-- The `authInfo` continuation of `executeCloud` (lines 263 to 274): a null
resolution skips header injection; a credential set is formatted as
`scheme credentials`, where a defined `username` replaces the credentials by
the base64 encoding of `username:password`; reading fields of an undefined
resolution raises a TypeError. -/
def applyAuthInfo (r : Req) : AuthResolved → Except KError Req
  | .null => .ok r
  | .undef => .error .typeError
  | .set c =>
    let credentials : String :=
      match c.username with
      | some u => base64encode (u ++ ":" ++ jsShow c.password)
      | none => jsShow c.credentials
    .ok (r.setHeader "Authorization" (c.scheme ++ " " ++ credentials))

/-- Layer events recorded while executing: a cache-rack invocation, an auth
function invocation, or a network-rack invocation (carrying the request
exactly as handed to the rack). -/
inductive Event where
  | cacheCall (r : Req)
  | authCall (c : Client)
  | netCall (r : Req)

/-- A rack: `execute(request) -> Promise<Response>`; a rejected promise is an
`error`, a resolved one carries the (possibly absent) response. -/
abbrev Rack := Req → Except KError (Option Response)

/-- Result of one `execute()` call: the settled promise, the final state of
the descriptor the call was made on, and the trace of layer events. -/
abbrev ExecResult := Except KError (Option Response) × Req × List Event

/-- The auth-resolution prefix of `executeCloud` (lines 258 to 275): absent
auth is skipped; a function is invoked with the client and its resolution is
applied; a static value is applied directly. -/
def resolveAuth (r : Req) : Except KError Req × List Event :=
  match r.auth with
  | .undef => (.ok r, [])
  | .set c => (applyAuthInfo r (.set c), [])
  | .fn f =>
    match f r.client with
    | .error e => (.error e, [.authCall r.client])
    | .ok v => (applyAuthInfo r v, [.authCall r.client])

/-- `executeCloud`: resolve auth, attach the Authorization header, then hand
the request to the network rack. -/
def executeCloud (net : Rack) (r : Req) : ExecResult :=
  match resolveAuth r with
  | (.error e, evs) => (.error e, r, evs)
  | (.ok r2, evs) => (net r2, r2, evs ++ [.netCall r2])

/-- `executeLocal`: hand the request to the cache rack. -/
def executeLocal (cache : Rack) (r : Req) : ExecResult :=
  (cache r, r, [.cacheCall r])

/-- The derived-descriptor construction used inside `execute()`:
`new PrivateRequest(method, path, query, body, ... client, dataPolicy ...)`
followed by `privateRequest.auth = this.auth`.  The constructor installs the
default headers, leaves `flags` undefined, stores the uppercased method, and
starts with `executing` false and no saved response.  Call sites only ever
pass methods already accepted by the setter, so the impossible rejection
branch of the constructor is elided. -/
def mkDerived (method path : String) (query : Option SMap) (body : JSVal)
    (client : Client) (dp : DataPolicy) (auth : AuthStrategy) : Req :=
  { method := jsToUpper method
    path := path
    query := query
    body := body
    headers := defaultHeaders
    protocol := client.apiProtocol
    host := client.apiHost
    flags := none
    client := client
    auth := auth
    dataPolicy := dp
    responseType := ""
    executing := false
    response := none }

/-- The re-entrancy guard and completion bookkeeping shared by every
`execute()` call (lines 158 to 168 and 229 to 246): reject at once when
already executing, otherwise run the policy body with the flag set, then save
the resolved response and clear the flag, or clear the flag and re-throw. -/
def guardWrap (r : Req) (body : Req → ExecResult) : ExecResult :=
  if r.executing then (.error .alreadyExecuting, r, [])
  else
    match body { r with executing := true } with
    | (.ok v, r2, tr) => (.ok v, { r2 with response := v, executing := false }, tr)
    | (.error e, r2, tr) => (.error e, { r2 with executing := false }, tr)

/-- `execute()` on a LocalOnly descriptor. -/
def runLocalOnly (cache : Rack) (r : Req) : ExecResult :=
  guardWrap r (executeLocal cache)

/-- `execute()` on a CloudOnly descriptor. -/
def runCloudOnly (net : Rack) (r : Req) : ExecResult :=
  guardWrap r (executeCloud net)

/-- The continuation applied to the network resolution by the CloudFirst
policy (lines 201 to 226): `res` is the settled network promise, `r2` the
descriptor after Authorization injection (the `this` of the continuation),
`tr0` the events so far.  On a present successful response, mirror it into
the cache through a derived LocalOnly descriptor whose body is the response
data, forcing the method to PUT for a GET, and resolve to the network
response once the mirror resolves (a mirror rejection propagates); on a
present failed response with method GET, fall back to a derived LocalOnly
read whose body is the response data; on an absent response with method GET,
reading `response.data` raises a TypeError; otherwise resolve to the network
resolution unchanged.  The recursive `execute()` of the derived descriptor
dispatches on its literal LocalOnly policy, hence `runLocalOnly`. -/
def cloudFirstCont (cache : Rack) : Except KError (Option Response) → Req → List Event → ExecResult
  | .error e, r2, tr0 => (.error e, r2, tr0)
  | .ok (some resp), r2, tr0 =>
    if resp.success then
      let d := mkDerived (if r2.method = HttpMethod.GET then HttpMethod.PUT else r2.method)
        r2.path r2.query resp.data r2.client .LocalOnly r2.auth
      ((runLocalOnly cache d).1.map fun _ => some resp, r2, tr0 ++ (runLocalOnly cache d).2.2)
    else if r2.method = HttpMethod.GET then
      let d := mkDerived r2.method r2.path r2.query resp.data r2.client .LocalOnly r2.auth
      ((runLocalOnly cache d).1, r2, tr0 ++ (runLocalOnly cache d).2.2)
    else (.ok (some resp), r2, tr0)
  | .ok none, r2, tr0 =>
    if r2.method = HttpMethod.GET then (.error .typeError, r2, tr0)
    else (.ok none, r2, tr0)

/-- The CloudFirst policy body: invoke the network layer, then the
continuation. -/
def cloudFirstBody (cache net : Rack) (r1 : Req) : ExecResult :=
  cloudFirstCont cache (executeCloud net r1).1 (executeCloud net r1).2.1 (executeCloud net r1).2.2

/-- `execute()` on a CloudFirst descriptor. -/
def runCloudFirst (cache net : Rack) (r : Req) : ExecResult :=
  guardWrap r (cloudFirstBody cache net)

/-- The continuation applied to the cache resolution by the LocalFirst policy
(lines 173 to 197).  On a present successful cache response with a non-GET
method, mirror the write to the network through a derived CloudOnly
descriptor whose body is the response data and resolve to the cache response
once the mirror resolves (a mirror rejection propagates); on a present failed
response with method GET, fall through to a derived CloudFirst execution
whose body is the response data; on an absent response with method GET,
reading `response.data` raises a TypeError; otherwise resolve to the cache
resolution unchanged. -/
def localFirstCont (cache net : Rack) : Except KError (Option Response) → Req → List Event → ExecResult
  | .error e, r2, tr0 => (.error e, r2, tr0)
  | .ok (some resp), r2, tr0 =>
    if resp.success then
      if r2.method ≠ HttpMethod.GET then
        let d := mkDerived r2.method r2.path r2.query resp.data r2.client .CloudOnly r2.auth
        ((runCloudOnly net d).1.map fun _ => some resp, r2, tr0 ++ (runCloudOnly net d).2.2)
      else (.ok (some resp), r2, tr0)
    else if r2.method = HttpMethod.GET then
      let d := mkDerived r2.method r2.path r2.query resp.data r2.client .CloudFirst r2.auth
      ((runCloudFirst cache net d).1, r2, tr0 ++ (runCloudFirst cache net d).2.2)
    else (.ok (some resp), r2, tr0)
  | .ok none, r2, tr0 =>
    if r2.method = HttpMethod.GET then (.error .typeError, r2, tr0)
    else (.ok none, r2, tr0)

/-- The LocalFirst policy body: invoke the cache layer, then the
continuation. -/
def localFirstBody (cache net : Rack) (r1 : Req) : ExecResult :=
  localFirstCont cache net (executeLocal cache r1).1 (executeLocal cache r1).2.1
    (executeLocal cache r1).2.2

/-- `execute()` on a LocalFirst descriptor. -/
def runLocalFirst (cache net : Rack) (r : Req) : ExecResult :=
  guardWrap r (localFirstBody cache net)

/-- `PrivateRequest.execute` (lines 158 to 246): dispatch on the data policy.
The recursive calls of the source on derived descriptors always target a
policy of strictly smaller fallback depth, so the recursion is unrolled into
the four `run` functions above. -/
def execute (cache net : Rack) (r : Req) : ExecResult :=
  match r.dataPolicy with
  | .LocalOnly => runLocalOnly cache r
  | .CloudOnly => runCloudOnly net r
  | .LocalFirst => runLocalFirst cache net r
  | .CloudFirst => runCloudFirst cache net r

/-- Decidable equality of settled results (used to evaluate witnesses). -/
instance {ε α : Type} [DecidableEq ε] [DecidableEq α] : DecidableEq (Except ε α) := fun x y =>
  match x, y with
  | .ok a, .ok b =>
    if h : a = b then isTrue (by rw [h]) else isFalse fun hc => h (Except.ok.inj hc)
  | .error a, .error b =>
    if h : a = b then isTrue (by rw [h]) else isFalse fun hc => h (Except.error.inj hc)
  | .ok _, .error _ => isFalse fun hc => Except.noConfusion hc
  | .error _, .ok _ => isFalse fun hc => Except.noConfusion hc

/-- All header keys are stored lower-cased; every descriptor reachable through
the source API satisfies this, because `setHeader` is the only write path. -/
def HeadersNormalized (r : Req) : Prop := ∀ p ∈ r.headers, p.1 = jsToLower p.1

instance (r : Req) : Decidable (HeadersNormalized r) := by
  unfold HeadersNormalized; infer_instance

theorem getHeaderL_objSet (hs : SMap) (hn : ∀ p ∈ hs, p.1 = jsToLower p.1)
    (name value name2 : String) (hc : jsToLower name2 = jsToLower name) :
    getHeaderL (objSet hs (jsToLower name) value) name2 = some value := by
  induction hs with
  | nil =>
    simp [objSet, getHeaderL, jsToLower_idem, hc]
  | cons p rest ih =>
    obtain ⟨k0, v0⟩ := p
    by_cases h0 : k0 = jsToLower name
    · simp [objSet, h0, getHeaderL, jsToLower_idem, hc]
    · have hk0 : k0 = jsToLower k0 := hn (k0, v0) (by simp)
      have hne : ¬jsToLower k0 = jsToLower name2 := by
        intro hcon
        exact h0 (by rw [hk0, hcon, hc])
      have hrest : ∀ p ∈ rest, p.1 = jsToLower p.1 := fun p hp => hn p (by simp [hp])
      simp [objSet, h0, getHeaderL, hne, ih hrest]

/-- C8: `setHeader` followed by `getHeader` under any casing of the same name
returns the stored value (on a descriptor whose header keys are normalized,
as all reachable descriptors are). -/
theorem setHeader_getHeader_case_insensitive (r : Req) (name value name2 : String)
    (hn : HeadersNormalized r) (hc : jsToLower name2 = jsToLower name) :
    (r.setHeader name value).getHeader name2 = some value := by
  exact getHeaderL_objSet r.headers hn name value name2 hc

/-- C7: the `url` getter is a pure function of protocol, host, path, flags and
the serialized query, and the query-string mapping merges flags first and
overlays the query serialization, so the query wins on a shared key. -/
theorem url_pure_function_and_merge_order :
    (∀ r1 r2 : Req, r1.protocol = r2.protocol → r1.host = r2.host →
      r1.path = r2.path → r1.flags = r2.flags → r1.query = r2.query →
      r1.url = r2.url) ∧
    (∀ r : Req, NodupKeys r.queryJSON → NodupKeys r.flagsMap → ∀ k,
      alookup r.mergedQuery k =
        match alookup r.queryJSON k with
        | some v => some v
        | none => alookup r.flagsMap k) := by
  constructor
  · intro r1 r2 hp hh hpa hf hq
    unfold Req.url Req.mergedQuery Req.queryJSON Req.flagsMap
    rw [hp, hh, hpa, hf, hq]
  · intro r hq hf k
    unfold Req.mergedQuery
    rw [alookup_jsMerge _ _ _ hq, alookup_jsMerge _ _ _ hf]
    cases alookup r.queryJSON k <;> cases alookup r.flagsMap k <;> simp [alookup]

/-- C9: the `method` setter rejects exactly the non-strings and the strings
whose uppercased form is not one of the six allowed methods, and stores an
accepted value uppercased.  The setter is a plain synchronous function,
separate from `execute`, so the rejection happens at assignment, before any
layer work. -/
theorem method_setter_validation (r : Req) (v : JSVal) :
    ((∃ e, setMethodVal r v = .error e) ↔
      (∀ s, v ≠ .str s) ∨ ∃ s, v = .str s ∧ jsToUpper s ∉ httpMethods) ∧
    (∀ s, v = .str s → jsToUpper s ∈ httpMethods →
      setMethodVal r v = .ok { r with method := jsToUpper s }) := by
  constructor
  · cases v with
    | str s =>
      by_cases h : jsToUpper s ∈ httpMethods
      · simp [setMethodVal, h]
      · simp [setMethodVal, h]
    | undef => simp [setMethodVal]
    | null => simp [setMethodVal]
    | num n => simp [setMethodVal]
  · intro s hs hm
    subst hs
    simp [setMethodVal, hm]

theorem guardWrap_already (r : Req) (f : Req → ExecResult) (h : r.executing = true) :
    guardWrap r f = (.error .alreadyExecuting, r, []) := by
  unfold guardWrap
  rw [h]
  simp

theorem guardWrap_run (r : Req) (f : Req → ExecResult) (h : r.executing = false) :
    guardWrap r f =
      match f { r with executing := true } with
      | (.ok v, r2, tr) => (.ok v, { r2 with response := v, executing := false }, tr)
      | (.error e, r2, tr) => (.error e, { r2 with executing := false }, tr) := by
  unfold guardWrap
  rw [h]
  simp

theorem guardWrap_state_ok (r : Req) (f : Req → ExecResult)
    (h : r.executing = false) (v : Option Response) (r2 : Req) (tr : List Event)
    (hf : f { r with executing := true } = (.ok v, r2, tr)) :
    guardWrap r f = (.ok v, { r2 with response := v, executing := false }, tr) := by
  rw [guardWrap_run r f h, hf]

theorem guardWrap_state_err (r : Req) (f : Req → ExecResult)
    (h : r.executing = false) (e : KError) (r2 : Req) (tr : List Event)
    (hf : f { r with executing := true } = (.error e, r2, tr)) :
    guardWrap r f = (.error e, { r2 with executing := false }, tr) := by
  rw [guardWrap_run r f h, hf]

theorem execute_eq_localOnly (cache net : Rack) (r : Req)
    (h : r.dataPolicy = .LocalOnly) : execute cache net r = runLocalOnly cache r := by
  unfold execute
  rw [h]

theorem execute_eq_cloudOnly (cache net : Rack) (r : Req)
    (h : r.dataPolicy = .CloudOnly) : execute cache net r = runCloudOnly net r := by
  unfold execute
  rw [h]

theorem execute_eq_localFirst (cache net : Rack) (r : Req)
    (h : r.dataPolicy = .LocalFirst) : execute cache net r = runLocalFirst cache net r := by
  unfold execute
  rw [h]

theorem execute_eq_cloudFirst (cache net : Rack) (r : Req)
    (h : r.dataPolicy = .CloudFirst) : execute cache net r = runCloudFirst cache net r := by
  unfold execute
  rw [h]

theorem execute_is_guarded (cache net : Rack) (r : Req) :
    ∃ f, execute cache net r = guardWrap r f := by
  cases h : r.dataPolicy
  · exact ⟨_, execute_eq_localOnly cache net r h⟩
  · exact ⟨_, execute_eq_localFirst cache net r h⟩
  · exact ⟨_, execute_eq_cloudOnly cache net r h⟩
  · exact ⟨_, execute_eq_cloudFirst cache net r h⟩

/-- C5: a second `execute()` while the flag is set fails at once with the
already-executing error, leaves the descriptor untouched and performs no layer
work (empty trace); otherwise the flag is set for the duration of the body and
is false again once the call settles, on success and on failure alike. -/
theorem execute_single_flight (cache net : Rack) (r : Req) :
    (r.executing = true → execute cache net r = (.error .alreadyExecuting, r, [])) ∧
    (r.executing = false → (execute cache net r).2.1.executing = false) := by
  obtain ⟨f, hf⟩ := execute_is_guarded cache net r
  constructor
  · intro h
    rw [hf, guardWrap_already r f h]
  · intro h
    rw [hf, guardWrap_run r f h]
    rcases f { r with executing := true } with ⟨res, r2, tr⟩
    cases res <;> rfl

/-- Fields other than the headers are untouched by Authorization injection. -/
def SameButHeaders (r2 r : Req) : Prop :=
  r2.method = r.method ∧ r2.path = r.path ∧ r2.query = r.query ∧
  r2.client = r.client ∧ r2.auth = r.auth ∧ r2.response = r.response ∧
  r2.body = r.body ∧ r2.dataPolicy = r.dataPolicy ∧ r2.executing = r.executing

theorem sameButHeaders_refl (r : Req) : SameButHeaders r r :=
  ⟨rfl, rfl, rfl, rfl, rfl, rfl, rfl, rfl, rfl⟩

theorem applyAuthInfo_fields (r : Req) (v : AuthResolved) (r2 : Req)
    (h : applyAuthInfo r v = .ok r2) : SameButHeaders r2 r := by
  cases v with
  | undef => cases h
  | null =>
    cases h
    exact sameButHeaders_refl r
  | set c =>
    unfold applyAuthInfo at h
    cases h
    exact sameButHeaders_refl r

theorem resolveAuth_ok_fields (r r2 : Req)
    (h : (resolveAuth r).1 = .ok r2) : SameButHeaders r2 r := by
  unfold resolveAuth at h
  split at h
  · cases h
    exact sameButHeaders_refl r
  · rename_i c heq
    have h2 : applyAuthInfo r (AuthResolved.set c) = Except.ok r2 := h
    exact applyAuthInfo_fields r _ r2 h2
  · split at h
    · cases h
    · rename_i v heq
      have h2 : applyAuthInfo r v = Except.ok r2 := h
      exact applyAuthInfo_fields r _ r2 h2

theorem executeCloud_snd_fields (net : Rack) (r : Req) (res : Except KError (Option Response))
    (r2 : Req) (tr : List Event) (h : executeCloud net r = (res, r2, tr)) :
    SameButHeaders r2 r := by
  unfold executeCloud at h
  split at h
  · rw [Prod.mk.injEq, Prod.mk.injEq] at h
    rw [← h.2.1]
    exact sameButHeaders_refl r
  · rename_i r2x evs heq
    rw [Prod.mk.injEq, Prod.mk.injEq] at h
    rw [← h.2.1]
    exact resolveAuth_ok_fields r r2x (by rw [heq])

theorem executeCloud_fields (net : Rack) (r : Req) :
    SameButHeaders (executeCloud net r).2.1 r := by
  rcases h : executeCloud net r with ⟨res, r2, tr⟩
  exact executeCloud_snd_fields net r res r2 tr h

theorem executeLocal_state (cache : Rack) (r : Req) :
    (executeLocal cache r).2.1 = r := rfl

theorem cloudFirstCont_snd (cache : Rack) (res : Except KError (Option Response))
    (r2 : Req) (tr0 : List Event) : (cloudFirstCont cache res r2 tr0).2.1 = r2 := by
  rcases res with e | opt
  · rfl
  · rcases opt with _ | resp
    · simp only [cloudFirstCont]
      split <;> rfl
    · simp only [cloudFirstCont]
      split
      · rfl
      · split <;> rfl

theorem localFirstCont_snd (cache net : Rack) (res : Except KError (Option Response))
    (r2 : Req) (tr0 : List Event) : (localFirstCont cache net res r2 tr0).2.1 = r2 := by
  rcases res with e | opt
  · rfl
  · rcases opt with _ | resp
    · simp only [localFirstCont]
      split <;> rfl
    · simp only [localFirstCont]
      split
      · split <;> rfl
      · split <;> rfl

theorem cloudFirstBody_response (cache net : Rack) (r1 : Req) :
    (cloudFirstBody cache net r1).2.1.response = r1.response := by
  unfold cloudFirstBody
  rw [cloudFirstCont_snd]
  exact (executeCloud_fields net r1).2.2.2.2.2.1

theorem localFirstBody_response (cache net : Rack) (r1 : Req) :
    (localFirstBody cache net r1).2.1.response = r1.response := by
  unfold localFirstBody
  rw [localFirstCont_snd]
  rfl

/-- C10: the `response` field is overwritten, with the resolved value, exactly
when `execute()` resolves; a rejected execution leaves it at its previous
value. -/
theorem response_saved_only_on_success (cache net : Rack) (r : Req) :
    (∀ e, (execute cache net r).1 = .error e →
      (execute cache net r).2.1.response = r.response) ∧
    (∀ v, (execute cache net r).1 = .ok v →
      (execute cache net r).2.1.response = v) := by
  by_cases hex : r.executing = true
  · obtain ⟨f, hf⟩ := execute_is_guarded cache net r
    rw [hf, guardWrap_already r f hex]
    exact ⟨fun e _ => rfl, fun v hv => by cases hv⟩
  · have hex' : r.executing = false := by
      cases h : r.executing
      · rfl
      · exact absurd h hex
    have key : ∀ (body : Req → ExecResult),
        (∀ r1, (body r1).2.1.response = r1.response) →
        (∀ e, (guardWrap r body).1 = .error e →
          (guardWrap r body).2.1.response = r.response) ∧
        (∀ v, (guardWrap r body).1 = .ok v →
          (guardWrap r body).2.1.response = v) := by
      intro body hpres
      rw [guardWrap_run r body hex']
      rcases hb : body { r with executing := true } with ⟨res, r2, tr⟩
      have hr2 : r2.response = r.response := by
        have := hpres { r with executing := true }
        rw [hb] at this
        exact this
      cases res with
      | error e =>
        constructor
        · intro e2 _
          exact hr2
        · intro v hv
          cases hv
      | ok v =>
        constructor
        · intro e2 he2
          cases he2
        · intro v2 hv2
          cases hv2
          rfl
    cases hdp : r.dataPolicy
    · rw [execute_eq_localOnly cache net r hdp]
      exact key _ fun r1 => by rw [executeLocal_state]
    · rw [execute_eq_localFirst cache net r hdp]
      exact key _ fun r1 => localFirstBody_response cache net r1
    · rw [execute_eq_cloudOnly cache net r hdp]
      exact key _ fun r1 => (executeCloud_fields net r1).2.2.2.2.2.1
    · rw [execute_eq_cloudFirst cache net r hdp]
      exact key _ fun r1 => cloudFirstBody_response cache net r1

theorem jsToUpper_valid (m : String) (h : ValidMethod m) : jsToUpper m = m := by
  unfold ValidMethod httpMethods at h
  simp only [HttpMethod.OPTIONS, HttpMethod.GET, HttpMethod.POST, HttpMethod.PATCH,
    HttpMethod.PUT, HttpMethod.DELETE, List.mem_cons, List.not_mem_nil, or_false] at h
  rcases h with h | h | h | h | h | h <;> subst h <;> decide

/-- C4: a LocalFirst write (non-GET) whose cache response is a present success
mirrors the write through a derived CloudOnly descriptor carrying the cache
response data as body, and, once the mirror resolves, resolves the overall
call to the original cache response (a mirror rejection propagates). -/
theorem localFirst_write_mirrors_then_returns_cache (cache net : Rack) (r : Req)
    (resp : Response)
    (hdp : r.dataPolicy = .LocalFirst) (hex : r.executing = false)
    (hvm : ValidMethod r.method) (hm : ¬r.method = HttpMethod.GET)
    (hcache : cache { r with executing := true } = .ok (some resp))
    (hsucc : resp.success = true) :
    let d := mkDerived r.method r.path r.query resp.data r.client .CloudOnly r.auth
    d.dataPolicy = .CloudOnly ∧ d.method = r.method ∧ d.path = r.path ∧
    d.query = r.query ∧ d.body = resp.data ∧
    (execute cache net r).1 = ((execute cache net d).1.map fun _ => some resp) ∧
    (execute cache net r).2.2 =
      Event.cacheCall { r with executing := true } :: (execute cache net d).2.2 ∧
    (∀ w, (execute cache net d).1 = .ok w → (execute cache net r).1 = .ok (some resp)) := by
  intro d
  have hdm : d.method = r.method := jsToUpper_valid r.method hvm
  have hD : execute cache net d = runCloudOnly net d := rfl
  have hbody : localFirstBody cache net { r with executing := true } =
      ((runCloudOnly net d).1.map fun _ => some resp, { r with executing := true },
        Event.cacheCall { r with executing := true } :: (runCloudOnly net d).2.2) := by
    simp only [localFirstBody, executeLocal]
    rw [hcache]
    simp only [localFirstCont]
    rw [if_pos hsucc, if_pos hm]
    rfl
  have hmain : execute cache net r =
      match ((runCloudOnly net d).1.map fun _ => some resp, ({ r with executing := true } : Req),
        Event.cacheCall { r with executing := true } :: (runCloudOnly net d).2.2) with
      | (.ok v, r2, tr) => (.ok v, { r2 with response := v, executing := false }, tr)
      | (.error e, r2, tr) => (.error e, { r2 with executing := false }, tr) := by
    rw [execute_eq_localFirst _ _ _ hdp]
    unfold runLocalFirst
    rw [guardWrap_run _ _ hex, hbody]
    rfl
  refine ⟨rfl, hdm, rfl, rfl, rfl, ?_, ?_, ?_⟩
  · rw [hmain, hD]
    rcases hrl : (runCloudOnly net d).1 with e | w <;> simp [Except.map]
  · rw [hmain, hD]
    rcases hrl : (runCloudOnly net d).1 with e | w <;> simp [Except.map]
  · intro w hw
    rw [hD] at hw
    rw [hmain, hw]
    simp [Except.map]

/-- C3: a CloudFirst execution whose network response is a present success
mirrors it into the cache through a derived LocalOnly descriptor whose body is
the network response data, with the method forced to PUT when the original
method was GET and kept otherwise, and, once the mirror resolves, resolves
the overall call to the original network response (a mirror rejection
propagates). -/
theorem cloudFirst_success_mirrors_then_returns_network (cache net : Rack) (r r2 : Req)
    (resp : Response) (tr0 : List Event)
    (hdp : r.dataPolicy = .CloudFirst) (hex : r.executing = false)
    (hvm : ValidMethod r.method)
    (hnet : executeCloud net { r with executing := true } = (.ok (some resp), r2, tr0))
    (hsucc : resp.success = true) :
    let d := mkDerived (if r.method = HttpMethod.GET then HttpMethod.PUT else r.method)
      r.path r.query resp.data r.client .LocalOnly r.auth
    d.dataPolicy = .LocalOnly ∧ d.path = r.path ∧ d.query = r.query ∧ d.body = resp.data ∧
    (r.method = HttpMethod.GET → d.method = HttpMethod.PUT) ∧
    (¬r.method = HttpMethod.GET → d.method = r.method) ∧
    (execute cache net r).1 = ((execute cache net d).1.map fun _ => some resp) ∧
    (execute cache net r).2.2 = tr0 ++ (execute cache net d).2.2 ∧
    (∀ w, (execute cache net d).1 = .ok w → (execute cache net r).1 = .ok (some resp)) := by
  intro d
  have hflds := executeCloud_snd_fields net { r with executing := true } _ r2 tr0 hnet
  have hm2 : r2.method = r.method := hflds.1
  have hp2 : r2.path = r.path := hflds.2.1
  have hq2 : r2.query = r.query := hflds.2.2.1
  have hc2 : r2.client = r.client := hflds.2.2.2.1
  have ha2 : r2.auth = r.auth := hflds.2.2.2.2.1
  have hD : execute cache net d = runLocalOnly cache d := rfl
  have hbody : cloudFirstBody cache net { r with executing := true } =
      ((runLocalOnly cache d).1.map fun _ => some resp, r2,
        tr0 ++ (runLocalOnly cache d).2.2) := by
    simp only [cloudFirstBody, hnet]
    simp only [cloudFirstCont]
    rw [if_pos hsucc, hm2, hp2, hq2, hc2, ha2]
  have hmain : execute cache net r =
      match ((runLocalOnly cache d).1.map fun _ => some resp, r2,
        tr0 ++ (runLocalOnly cache d).2.2) with
      | (.ok v, r3, tr) => (.ok v, { r3 with response := v, executing := false }, tr)
      | (.error e, r3, tr) => (.error e, { r3 with executing := false }, tr) := by
    rw [execute_eq_cloudFirst _ _ _ hdp]
    unfold runCloudFirst
    rw [guardWrap_run _ _ hex, hbody]
    rfl
  refine ⟨rfl, rfl, rfl, rfl, ?_, ?_, ?_, ?_, ?_⟩
  · intro hg
    show jsToUpper (if r.method = HttpMethod.GET then HttpMethod.PUT else r.method) = HttpMethod.PUT
    rw [if_pos hg]
    decide
  · intro hg
    show jsToUpper (if r.method = HttpMethod.GET then HttpMethod.PUT else r.method) = r.method
    rw [if_neg hg]
    exact jsToUpper_valid _ hvm
  · rw [hmain, hD]
    rcases hrl : (runLocalOnly cache d).1 with e | w <;> simp [Except.map]
  · rw [hmain, hD]
    rcases hrl : (runLocalOnly cache d).1 with e | w <;> simp [Except.map]
  · intro w hw
    rw [hD] at hw
    rw [hmain, hw]
    simp [Except.map]

/-- C1 (amended): a LocalFirst GET whose cache response is a present failure
falls through to a derived CloudFirst descriptor whose body is the cache
response data (not the original body), and the overall call resolves to that
derived execution; a GET whose cache resolution is absent rejects with a
TypeError (reading `data` of undefined) instead of constructing a derived
descriptor. -/
theorem localFirst_get_fallback_amended (cache net : Rack) (r : Req)
    (hdp : r.dataPolicy = .LocalFirst) (hex : r.executing = false)
    (hm : r.method = HttpMethod.GET) :
    (∀ resp : Response, cache { r with executing := true } = .ok (some resp) →
      resp.success = false →
      let d := mkDerived r.method r.path r.query resp.data r.client .CloudFirst r.auth
      d.dataPolicy = .CloudFirst ∧ d.method = HttpMethod.GET ∧ d.path = r.path ∧
      d.query = r.query ∧ d.body = resp.data ∧
      (execute cache net r).1 = (execute cache net d).1 ∧
      (execute cache net r).2.2 =
        Event.cacheCall { r with executing := true } :: (execute cache net d).2.2) ∧
    (cache { r with executing := true } = .ok none →
      (execute cache net r).1 = .error .typeError ∧
      (execute cache net r).2.2 = [Event.cacheCall { r with executing := true }]) := by
  constructor
  · intro resp hcache hfail d
    have hD : execute cache net d = runCloudFirst cache net d := rfl
    have hdm : d.method = HttpMethod.GET := by
      show jsToUpper r.method = HttpMethod.GET
      rw [hm]
      decide
    have hbody : localFirstBody cache net { r with executing := true } =
        ((runCloudFirst cache net d).1, { r with executing := true },
          Event.cacheCall { r with executing := true } ::
            (runCloudFirst cache net d).2.2) := by
      simp only [localFirstBody, executeLocal]
      rw [hcache]
      simp only [localFirstCont]
      rw [if_neg (by rw [hfail]; exact Bool.false_ne_true), if_pos hm]
      rfl
    have hmain : execute cache net r =
        match ((runCloudFirst cache net d).1, ({ r with executing := true } : Req),
          Event.cacheCall { r with executing := true } ::
            (runCloudFirst cache net d).2.2) with
        | (.ok v, r3, tr) => (.ok v, { r3 with response := v, executing := false }, tr)
        | (.error e, r3, tr) => (.error e, { r3 with executing := false }, tr) := by
      rw [execute_eq_localFirst _ _ _ hdp]
      unfold runLocalFirst
      rw [guardWrap_run _ _ hex, hbody]
      rfl
    refine ⟨rfl, hdm, rfl, rfl, rfl, ?_, ?_⟩
    · rw [hmain, hD]
      rcases hrl : (runCloudFirst cache net d).1 with e | w <;> simp
    · rw [hmain, hD]
      rcases hrl : (runCloudFirst cache net d).1 with e | w <;> simp
  · intro hnone
    have hbody : localFirstBody cache net { r with executing := true } =
        (.error .typeError, { r with executing := true },
          [Event.cacheCall { r with executing := true }]) := by
      simp only [localFirstBody, executeLocal]
      rw [hnone]
      simp only [localFirstCont]
      rw [if_pos hm]
    have hmain : execute cache net r =
        (.error .typeError, { r with executing := false },
          [Event.cacheCall { r with executing := true }]) := by
      rw [execute_eq_localFirst _ _ _ hdp]
      unfold runLocalFirst
      rw [guardWrap_run _ _ hex, hbody]
    rw [hmain]
    exact ⟨rfl, rfl⟩

/-- C2 (amended): a CloudFirst GET whose network response is a present failure
falls back to a derived LocalOnly descriptor whose body is the network
response data (not the original body), and the overall call resolves to that
derived execution. -/
theorem cloudFirst_get_fallback_amended (cache net : Rack) (r r2 : Req)
    (resp : Response) (tr0 : List Event)
    (hdp : r.dataPolicy = .CloudFirst) (hex : r.executing = false)
    (hm : r.method = HttpMethod.GET)
    (hnet : executeCloud net { r with executing := true } = (.ok (some resp), r2, tr0))
    (hfail : resp.success = false) :
    let d := mkDerived r.method r.path r.query resp.data r.client .LocalOnly r.auth
    d.dataPolicy = .LocalOnly ∧ d.method = HttpMethod.GET ∧ d.path = r.path ∧
    d.query = r.query ∧ d.body = resp.data ∧
    (execute cache net r).1 = (execute cache net d).1 ∧
    (execute cache net r).2.2 = tr0 ++ (execute cache net d).2.2 := by
  intro d
  have hflds := executeCloud_snd_fields net { r with executing := true } _ r2 tr0 hnet
  have hm2 : r2.method = r.method := hflds.1
  have hp2 : r2.path = r.path := hflds.2.1
  have hq2 : r2.query = r.query := hflds.2.2.1
  have hc2 : r2.client = r.client := hflds.2.2.2.1
  have ha2 : r2.auth = r.auth := hflds.2.2.2.2.1
  have hD : execute cache net d = runLocalOnly cache d := rfl
  have hdm : d.method = HttpMethod.GET := by
    show jsToUpper r.method = HttpMethod.GET
    rw [hm]
    decide
  have hbody : cloudFirstBody cache net { r with executing := true } =
      ((runLocalOnly cache d).1, r2, tr0 ++ (runLocalOnly cache d).2.2) := by
    simp only [cloudFirstBody, hnet]
    simp only [cloudFirstCont]
    rw [if_neg (by rw [hfail]; exact Bool.false_ne_true), if_pos (hm2.trans hm),
      hm2, hp2, hq2, hc2, ha2]
  have hmain : execute cache net r =
      match ((runLocalOnly cache d).1, r2, tr0 ++ (runLocalOnly cache d).2.2) with
      | (.ok v, r3, tr) => (.ok v, { r3 with response := v, executing := false }, tr)
      | (.error e, r3, tr) => (.error e, { r3 with executing := false }, tr) := by
    rw [execute_eq_cloudFirst _ _ _ hdp]
    unfold runCloudFirst
    rw [guardWrap_run _ _ hex, hbody]
    rfl
  refine ⟨rfl, hdm, rfl, rfl, rfl, ?_, ?_⟩
  · rw [hmain, hD]
    rcases hrl : (runLocalOnly cache d).1 with e | w <;> simp
  · rw [hmain, hD]
    rcases hrl : (runLocalOnly cache d).1 with e | w <;> simp

/-- C6: a resolved credential set of shape scheme/credentials attaches
`Authorization: scheme credentials` verbatim; a shape with a defined username
attaches `scheme base64(username:password)`; an explicit null resolution adds
no header; a function strategy is invoked with the client and its resolution
is applied before the network rack is invoked (the auth event precedes the
network event, and the network rack receives the header-augmented request). -/
theorem auth_resolution_and_header (net : Rack) (r : Req) :
    (∀ c : CredSet, ∀ cr : String, c.username = none → c.credentials = some cr →
      applyAuthInfo r (.set c) =
        .ok (r.setHeader "Authorization" (c.scheme ++ " " ++ cr))) ∧
    (∀ c : CredSet, ∀ u p : String, c.username = some u → c.password = some p →
      applyAuthInfo r (.set c) =
        .ok (r.setHeader "Authorization"
          (c.scheme ++ " " ++ base64encode (u ++ ":" ++ p)))) ∧
    (applyAuthInfo r .null = .ok r) ∧
    (HeadersNormalized r → ∀ v : String,
      (r.setHeader "Authorization" v).getHeader "Authorization" = some v) ∧
    (∀ f v r2, r.auth = .fn f → f r.client = .ok v → applyAuthInfo r v = .ok r2 →
      executeCloud net r = (net r2, r2, [.authCall r.client, .netCall r2])) ∧
    (∀ c r2, r.auth = .set c → applyAuthInfo r (.set c) = .ok r2 →
      executeCloud net r = (net r2, r2, [.netCall r2])) := by
  refine ⟨?_, ?_, rfl, ?_, ?_, ?_⟩
  · intro c cr hu hcr
    simp [applyAuthInfo, hu, hcr, jsShow]
  · intro c u p hu hp
    simp [applyAuthInfo, hu, hp, jsShow]
  · intro hn v
    exact getHeaderL_objSet r.headers hn "Authorization" v "Authorization" rfl
  · intro f v r2 hauth hres happ
    have hra : resolveAuth r = (.ok r2, [.authCall r.client]) := by
      simp only [resolveAuth, hauth, hres, happ]
    simp only [executeCloud, hra]
    rfl
  · intro c r2 hauth happ
    have hra : resolveAuth r = (.ok r2, []) := by
      simp only [resolveAuth, hauth, happ]
    simp only [executeCloud, hra]
    rfl

/-- A concrete client used by the concrete checks below. -/
def client0 : Client := ⟨"https:", "api.example.com"⟩

/-- A concrete LocalFirst GET descriptor with a distinguishable body. -/
def baseReq : Req :=
  { method := "GET", path := "/books", query := none, body := .str "origbody",
    headers := defaultHeaders, protocol := "https:", host := "api.example.com",
    flags := none, client := client0, auth := .undef, dataPolicy := .LocalFirst,
    responseType := "", executing := false, response := none }

/-- The same descriptor under the CloudFirst policy. -/
def baseReqCF : Req := { baseReq with dataPolicy := .CloudFirst }

/-- The same descriptor as a LocalFirst PUT. -/
def putReq : Req := { baseReq with method := "PUT" }

/-- A cache rack that always resolves to a failed response with marked data. -/
def cacheFailData : Rack := fun _ => .ok (some ⟨false, .str "cachedata"⟩)

/-- A cache rack that always resolves to a successful response. -/
def cacheOkData : Rack := fun _ => .ok (some ⟨true, .str "cachedata"⟩)

/-- A cache rack that resolves to an absent (undefined) response. -/
def cacheAbsent : Rack := fun _ => .ok none

/-- A network rack that always resolves to a failed response with marked data. -/
def netFailData : Rack := fun _ => .ok (some ⟨false, .str "netdata"⟩)

/-- A network rack that always resolves to a successful response. -/
def netOkData : Rack := fun _ => .ok (some ⟨true, .str "netdata"⟩)

/-- A network rack that rejects. -/
def netReject : Rack := fun _ => .error (.rackFailure "network down")

/-- The body carried by a network-rack invocation event. -/
def netBody : Event → Option JSVal
  | .netCall r => some r.body
  | _ => none

/-- The body carried by a cache-rack invocation event. -/
def cacheBody : Event → Option JSVal
  | .cacheCall r => some r.body
  | _ => none

/-- C1 counterexample: with a LocalFirst GET whose body is `origbody` and a
cache failure carrying `cachedata`, the derived CloudFirst execution reaches
the network rack with body `cachedata`, not the original body as the claim
states (a derived descriptor with the original body would have reached it
with `origbody`); and with an absent cache resolution the call rejects with a
TypeError instead of constructing a derived descriptor at all. -/
theorem localFirst_get_fallback_counterexample :
    baseReq.dataPolicy = .LocalFirst ∧ baseReq.method = HttpMethod.GET ∧
    baseReq.body = .str "origbody" ∧
    cacheFailData { baseReq with executing := true } =
      .ok (some { success := false, data := .str "cachedata" }) ∧
    (execute cacheFailData netFailData baseReq).2.2.filterMap netBody =
      [.str "cachedata"] ∧
    (execute cacheFailData netFailData
        (mkDerived baseReq.method baseReq.path baseReq.query baseReq.body baseReq.client
          .CloudFirst baseReq.auth)).2.2.filterMap netBody = [.str "origbody"] ∧
    (JSVal.str "cachedata" ≠ JSVal.str "origbody") ∧
    (execute cacheAbsent netFailData baseReq).1 = .error .typeError := by
  decide

/-- C1 witness for the amended claim. -/
theorem localFirst_get_fallback_amended_witness :
    (execute cacheFailData netFailData baseReq).1 =
      (execute cacheFailData netFailData
        (mkDerived baseReq.method baseReq.path baseReq.query (JSVal.str "cachedata")
          baseReq.client .CloudFirst baseReq.auth)).1 ∧
    (execute cacheAbsent netFailData baseReq).1 = .error .typeError := by
  constructor
  · exact ((localFirst_get_fallback_amended cacheFailData netFailData baseReq
      rfl rfl rfl).1 ⟨false, .str "cachedata"⟩ rfl rfl).2.2.2.2.2.1
  · exact ((localFirst_get_fallback_amended cacheAbsent netFailData baseReq
      rfl rfl rfl).2 rfl).1

/-- C2 counterexample: with a CloudFirst GET whose body is `origbody` and a
network failure carrying `netdata`, the derived LocalOnly execution reaches
the cache rack with body `netdata`, not the original body as the claim states
(a derived descriptor with the original body would have reached it with
`origbody`). -/
theorem cloudFirst_get_fallback_counterexample :
    baseReqCF.dataPolicy = .CloudFirst ∧ baseReqCF.method = HttpMethod.GET ∧
    baseReqCF.body = .str "origbody" ∧
    netFailData { baseReqCF with executing := true } =
      .ok (some { success := false, data := .str "netdata" }) ∧
    (execute cacheFailData netFailData baseReqCF).2.2.filterMap cacheBody =
      [.str "netdata"] ∧
    (execute cacheFailData netFailData
        (mkDerived baseReqCF.method baseReqCF.path baseReqCF.query baseReqCF.body
          baseReqCF.client .LocalOnly baseReqCF.auth)).2.2.filterMap cacheBody =
      [.str "origbody"] ∧
    (JSVal.str "netdata" ≠ JSVal.str "origbody") := by
  decide

/-- C2 witness for the amended claim. -/
theorem cloudFirst_get_fallback_amended_witness :
    (execute cacheFailData netFailData baseReqCF).1 =
      (execute cacheFailData netFailData
        (mkDerived baseReqCF.method baseReqCF.path baseReqCF.query (JSVal.str "netdata")
          baseReqCF.client .LocalOnly baseReqCF.auth)).1 := by
  exact (cloudFirst_get_fallback_amended cacheFailData netFailData baseReqCF
    { baseReqCF with executing := true } ⟨false, .str "netdata"⟩
    [Event.netCall { baseReqCF with executing := true }]
    rfl rfl rfl rfl rfl).2.2.2.2.2.1

/-- C3 witness. -/
theorem cloudFirst_success_mirror_witness :
    (execute cacheOkData netOkData baseReqCF).1 = .ok (some ⟨true, .str "netdata"⟩) := by
  have h := cloudFirst_success_mirrors_then_returns_network cacheOkData netOkData baseReqCF
    { baseReqCF with executing := true } ⟨true, .str "netdata"⟩
    [Event.netCall { baseReqCF with executing := true }] rfl rfl (by decide) rfl rfl
  exact h.2.2.2.2.2.2.2.2 (some ⟨true, .str "cachedata"⟩) (by decide)

/-- C4 witness. -/
theorem localFirst_write_mirror_witness :
    (execute cacheOkData netOkData putReq).1 = .ok (some ⟨true, .str "cachedata"⟩) := by
  have h := localFirst_write_mirrors_then_returns_cache cacheOkData netOkData putReq
    ⟨true, .str "cachedata"⟩ rfl rfl (by decide) (by decide) rfl rfl
  exact h.2.2.2.2.2.2.2 (some ⟨true, .str "netdata"⟩) (by decide)

/-- C5 witness. -/
theorem execute_single_flight_witness :
    execute cacheOkData netOkData { baseReq with executing := true } =
      (.error .alreadyExecuting, { baseReq with executing := true }, []) ∧
    (execute cacheOkData netOkData baseReq).2.1.executing = false := by
  constructor
  · exact (execute_single_flight cacheOkData netOkData
      { baseReq with executing := true }).1 rfl
  · exact (execute_single_flight cacheOkData netOkData baseReq).2 rfl

/-- Auth fixtures: a verbatim-credentials strategy, a username and password
strategy, and a function strategy. -/
def credSet0 : CredSet := { scheme := "Kinvey", credentials := some "abc123" }

def basicSet0 : CredSet := { scheme := "Basic", username := some "user", password := some "pass" }

def tokenSet0 : CredSet := { scheme := "Kinvey", credentials := some "tok" }

def credReq : Req := { baseReqCF with auth := .set credSet0 }

def basicReq : Req := { baseReqCF with auth := .set basicSet0 }

def fnReq : Req := { baseReqCF with auth := .fn fun _ => .ok (.set tokenSet0) }

/-- C6 witness. -/
theorem auth_resolution_witness :
    applyAuthInfo credReq (.set credSet0) =
      .ok (credReq.setHeader "Authorization" ("Kinvey" ++ " " ++ "abc123")) ∧
    applyAuthInfo basicReq (.set basicSet0) =
      .ok (basicReq.setHeader "Authorization"
        ("Basic" ++ " " ++ base64encode ("user" ++ ":" ++ "pass"))) ∧
    applyAuthInfo baseReq .null = .ok baseReq ∧
    (baseReq.setHeader "Authorization" "Kinvey abc123").getHeader "Authorization" =
      some "Kinvey abc123" ∧
    executeCloud netOkData fnReq =
      (netOkData (fnReq.setHeader "Authorization" ("Kinvey" ++ " " ++ "tok")),
        fnReq.setHeader "Authorization" ("Kinvey" ++ " " ++ "tok"),
        [.authCall fnReq.client,
          .netCall (fnReq.setHeader "Authorization" ("Kinvey" ++ " " ++ "tok"))]) ∧
    executeCloud netOkData credReq =
      (netOkData (credReq.setHeader "Authorization" ("Kinvey" ++ " " ++ "abc123")),
        credReq.setHeader "Authorization" ("Kinvey" ++ " " ++ "abc123"),
        [.netCall (credReq.setHeader "Authorization" ("Kinvey" ++ " " ++ "abc123"))]) := by
  refine ⟨?_, ?_, ?_, ?_, ?_, ?_⟩
  · exact (auth_resolution_and_header netOkData credReq).1 credSet0 "abc123" rfl rfl
  · exact (auth_resolution_and_header netOkData basicReq).2.1 basicSet0 "user" "pass" rfl rfl
  · exact (auth_resolution_and_header netOkData baseReq).2.2.1
  · exact (auth_resolution_and_header netOkData baseReq).2.2.2.1 (by decide) "Kinvey abc123"
  · exact (auth_resolution_and_header netOkData fnReq).2.2.2.2.1
      (fun _ => .ok (.set tokenSet0)) (.set tokenSet0) _ rfl rfl rfl
  · exact (auth_resolution_and_header netOkData credReq).2.2.2.2.2 credSet0 _ rfl rfl

/-- A descriptor whose flags and query collide on the key `kind`. -/
def flagsReq : Req :=
  { baseReq with
    flags := some [("kind", "f"), ("tls", "true")]
    query := some [("kind", "q")] }

/-- C7 witness. -/
theorem url_merge_witness :
    ({ baseReq with body := JSVal.null } : Req).url = baseReq.url ∧
    alookup flagsReq.mergedQuery "kind" = some "q" ∧
    alookup flagsReq.mergedQuery "tls" = some "true" := by
  refine ⟨?_, ?_, ?_⟩
  · exact url_pure_function_and_merge_order.1 { baseReq with body := JSVal.null } baseReq
      rfl rfl rfl rfl rfl
  · have h := url_pure_function_and_merge_order.2 flagsReq (by decide) (by decide) "kind"
    rw [h]
    decide
  · have h := url_pure_function_and_merge_order.2 flagsReq (by decide) (by decide) "tls"
    rw [h]
    decide

/-- C8 witness. -/
theorem header_case_witness :
    (baseReq.setHeader "X-Foo" "a").getHeader "x-foo" = some "a" :=
  setHeader_getHeader_case_insensitive baseReq "X-Foo" "a" "x-foo" (by decide) (by decide)

/-- C9 witness. -/
theorem method_setter_witness :
    setMethodVal baseReq (.str "get") = .ok { baseReq with method := jsToUpper "get" } ∧
    (∃ e, setMethodVal baseReq (.str "foo") = .error e) := by
  constructor
  · exact (method_setter_validation baseReq (.str "get")).2 "get" rfl (by decide)
  · exact (method_setter_validation baseReq (.str "foo")).1.mpr
      (Or.inr ⟨"foo", rfl, by decide⟩)

/-- A CloudOnly variant of the concrete descriptor. -/
def cloudOnlyReq : Req := { baseReq with dataPolicy := .CloudOnly }

/-- C10 witness. -/
theorem response_saved_witness :
    (execute cacheOkData netReject cloudOnlyReq).2.1.response = none ∧
    (execute cacheOkData netOkData cloudOnlyReq).2.1.response =
      some ⟨true, .str "netdata"⟩ := by
  constructor
  · exact (response_saved_only_on_success cacheOkData netReject cloudOnlyReq).1
      (.rackFailure "network down") (by decide)
  · exact (response_saved_only_on_success cacheOkData netOkData cloudOnlyReq).2
      (some ⟨true, .str "netdata"⟩) (by decide)

end Kinvey
